import Mathlib

/-!
Verification development for the `binja_weggli` plugin
(`src/binja_weggli.py`): a Binary Ninja extension that runs weggli
structural queries against decompiled function text, reducing the search
space by intersecting caller sets of the functions named in the query.

The host (Binary Ninja) and the external matcher (weggli) are collaborators
reached through narrow interfaces; they are embedded as explicit data
(`BinaryView`, `WeggliLib`).  The plugin's own logic — query normalization,
identifier resolution, caller-set seeding and intersection, the
decompile/match/report loop — is translated function by function from the
Python source.
-/

namespace BinjaWeggli

/-- A token of a linear-disassembly line, as produced by the host.
`isTag` models `token.type == InstructionTextTokenType.TagToken`. -/
structure Token where
  isTag : Bool
  text : String
  deriving DecidableEq, Repr

/-- One linear-disassembly line: its `contents.tokens`. -/
structure Line where
  tokens : List Token
  deriving DecidableEq, Repr

/-- A code cross-reference (`ReferenceSource`): the address it comes from. -/
structure XRef where
  address : Nat
  deriving DecidableEq, Repr

/-- A Binary Ninja `Function`: start address, short name, qualified symbol
name (`symbol.full_name`), and the address ranges making up its body
(half-open `[lo, hi)` intervals). -/
structure Func where
  start : Nat
  name : String
  fullName : String
  ranges : List (Nat × Nat)
  deriving DecidableEq, Repr

/-- Does the function's body contain address `a`?  Modelled from the host's
documented semantics of "functions containing an address". -/
def Func.containsAddr (f : Func) (a : Nat) : Bool :=
  f.ranges.any (fun r => decide (r.1 ≤ a) && decide (a < r.2))

/-- The loaded binary (`BinaryView`), read-only during a query run.
`getCallers` models `bv.get_callers(addr)` (the call sites targeting the
function starting at `addr`); `startLines`/`endLines` model the two windows
of linear-disassembly lines the host returns around a function
(`get_previous_linear_disassembly_lines` / `get_next_linear_disassembly_lines`
after seeking to `func.highest_address`). -/
structure BinaryView where
  functions : List Func
  getCallers : Nat → List XRef
  startLines : Func → List Line
  endLines : Func → List Line

/-- Embeds `bv.get_functions_containing(addr)`: modelled from the host API's
documented semantics — every function whose body ranges contain the
address (several, when regions overlap). -/
def get_functions_containing (bv : BinaryView) (a : Nat) : List Func :=
  bv.functions.filter (fun f => f.containsAddr a)

/-- Embeds `WeggliPlugin.get_function`: linear scan over `bv.functions`, first
exact name match, `none` when absent. -/
def get_function (bv : BinaryView) (name : String) : Option Func :=
  bv.functions.find? (fun f => f.name == name)

/-- Embeds `WeggliPlugin.decompile`: joins the line windows around the function
and concatenates every token's text except navigational tag tokens.
Total: always returns a `String` (the Python function always returns the
`str` produced by `"\n".join(...)`). -/
def decompile (bv : BinaryView) (f : Func) : String :=
  let lines := bv.startLines f ++ bv.endLines f
  String.intercalate "\n"
    (lines.map (fun l =>
      String.join ((l.tokens.filter (fun tk => !tk.isTag)).map Token.text)))

/-- Embeds `WeggliPlugin.xrefs_to`: for each call site targeting `f`, yield every
function containing the call site's address.  The Python generator is
restartable and deterministic for a fixed binary; here it is a pure list. -/
def xrefs_to (bv : BinaryView) (f : Func) : List Func :=
  (bv.getCallers f.start).flatMap (fun xref => get_functions_containing bv xref.address)

/-- The external weggli library, plus the ansi2html converter, as opaque
collaborators.  `parse_query` is deterministic, so the parsed query tree is
represented by the normalized query string itself: `identifiers qt` models
`weggli.identifiers(weggli.parse_query qt)`, `matches qt code` models
`weggli.matches(qt_tree, code)` (each result abstracted to a handle),
`display r code color` models `weggli.display(r, code, color)`, and
`parseOk qt = false` models `weggli.parse_query` raising a parse error.
(`wmatches` stands for `weggli.matches`; `matches` is reserved in Lean.) -/
structure WeggliLib where
  parseOk : String → Bool
  identifiers : String → List String
  wmatches : String → String → List Nat
  display : Nat → String → Bool → String

/-- Observable events of one query run: `log_warn`, `log_info`, `log_error`
calls, plus an instrumentation event recording each `weggli.matches`
invocation (which function's rendered code was handed to the matcher). -/
inductive Event where
  | warn (msg : String)
  | info (msg : String)
  | error (msg : String)
  | matcher (f : Func) (code : String)
  deriving DecidableEq, Repr

def isErrorEvent : Event → Bool
  | .error _ => true
  | _ => false

def isMatcherEvent : Event → Bool
  | .matcher _ _ => true
  | _ => false

def isInfoEvent : Event → Bool
  | .info _ => true
  | _ => false

/-- The warning text for a query missing a semicolon. -/
def semiWarn : String := "The query did not have a semi-colon, naively appending one."

/-- The warning text for a query missing braces. -/
def braceWarn : String :=
  "The query did not have braces, naively adjusting by adding beginning and ending ones."

def lbrace : Char := Char.ofNat 123

def rbrace : Char := Char.ofNat 125

def lbraceS : String := "\x7b"

def rbraceS : String := "\x7d"

/-- Python's `s.find(c) >= 0`, i.e. the character occurs in the string. -/
def hasChar (s : String) (c : Char) : Bool := decide (c ∈ s.data)

/-- First normalization step of `run_query`: `if query.find(";") < 0`,
append a semicolon with a warning. -/
def fixSemicolon (q : String) : String × List Event :=
  if hasChar q ';' = false then (q ++ ";", [Event.warn semiWarn]) else (q, [])

/-- Second normalization step of `run_query`:
`if query.find("\x7b") < 0 or query.find("\x7d") < 0`, wrap the (possibly
semicolon-fixed) query in a brace pair with a warning. -/
def fixBraces (p : String × List Event) : String × List Event :=
  if hasChar p.1 lbrace = false ∨ hasChar p.1 rbrace = false then
    (lbraceS ++ p.1 ++ rbraceS, p.2 ++ [Event.warn braceWarn])
  else p

/-- The query-normalization prefix of `WeggliPlugin.run_query`
(lines 57–62): returns the normalized query and the warnings emitted. -/
def normalize_query (q : String) : String × List Event :=
  fixBraces (fixSemicolon q)

/-- Occurrences of a character in a string. -/
def charCount (s : String) (c : Char) : Nat := s.data.count c

/-- Python's `hex(n)` for a natural number: `0x` followed by lowercase
hexadecimal digits. -/
def pyHex (n : Nat) : String := "0x" ++ String.mk (Nat.toDigits 16 n)

/-- Embeds `set(self.xrefs_to(referenced_funcs[0]))`: the caller set seeding the
search-space reduction (a set: duplicates removed). -/
def seedWork (bv : BinaryView) (f : Func) : List Func := (xrefs_to bv f).dedup

/-- Embeds `work.intersection_update(other)`: keep the elements of `work` that
also occur in `other`. -/
def interWork (w other : List Func) : List Func :=
  w.filter (fun g => decide (g ∈ other))

/-- The search-space reduction loop of `run_query` (lines 95–98): seed with
the callers of the first resolved function, then intersect in the callers
of each subsequent one. -/
def reduceSteps (bv : BinaryView) (f0 : Func) (rest : List Func) : List Func :=
  rest.foldl (fun w g => interWork w (xrefs_to bv g)) (seedWork bv f0)

/-- Embeds `list(filter(lambda f: f != None, [self.get_function(i) for i in identifiers]))`:
the resolved anchor functions of a normalized query. -/
def resolvedAnchors (bv : BinaryView) (lib : WeggliLib) (qt : String) : List Func :=
  (lib.identifiers qt).filterMap (fun i => get_function bv i)

/-- The candidate set a run searches: empty when no identifier resolves,
otherwise the reduced caller-set intersection. -/
def candidateSet (bv : BinaryView) (lib : WeggliLib) (qt : String) : List Func :=
  match resolvedAnchors bv lib qt with
  | [] => []
  | f0 :: rest => reduceSteps bv f0 rest

/-- The fixed CSS/head skeleton of the Report Tab document (lines 75–90),
parameterized by the three theme colors. -/
def reportCss (fg bg red : String) : String :=
  "<!DOCTYPE html>\n    <html>\n    <head>\n    <meta http-equiv=\"Content-Type\" content=\"text/html; charset=utf-8\">\n    <title>Weggli Report</title>\n    <style type=\"text/css\">\n    .ansi2html-content \x7b display: inline; white-space: pre-wrap; word-wrap: break-word; \x7d\n    .body_foreground \x7b color: "
    ++ fg ++ "; \x7d\n    .body_background \x7b background-color: "
    ++ bg ++ "; \x7d\n    .inv_foreground \x7b color: "
    ++ bg ++ "; \x7d\n    .inv_background \x7b background-color: "
    ++ fg ++ "; \x7d\n    .ansi31 \x7b color: "
    ++ red ++ " \x7d\n    </style>\n    </head>\n    <body>\n    "

/-- The report prefix accumulated before any search result (lines 75–92). -/
def reportHeader (fg bg red query : String) : String :=
  reportCss fg bg red ++ "<h2>Weggli Query</h2>"
    ++ "<dl><dt>Search Query</dt><dd><pre>" ++ query ++ "</pre></dd></dl>"

/-- The Log-mode match line (line 112):
`f"{len(results)} matches in {target.symbol.full_name} @ {hex(target.start)}"`. -/
def matchLogLine (n : Nat) (t : Func) : String :=
  toString n ++ " matches in " ++ t.fullName ++ " @ " ++ pyHex t.start

/-- The Report-Tab result entry for one candidate (line 115). -/
def resultDiv (n : Nat) (t : Func) : String :=
  "<div class=\"result\">" ++ toString n
    ++ " matches in <a href=\"binaryninja://?expr=" ++ t.fullName ++ "\">"
    ++ t.fullName ++ "</a> @ <a href=\"binaryninja://?expr=" ++ pyHex t.start
    ++ "\">" ++ pyHex t.start ++ "</a></div>"

/-- The Report-Tab colorized code block for one match (line 124); `s` is
the ansi2html conversion of the colorized `weggli.display` output. -/
def codeDiv (s : String) : String :=
  "<div class=\"ansi2html-content\"><pre><code>" ++ s ++ "</code></pre></div>"

/-- One iteration of the candidate loop of `run_query` (lines 103–126):
decompile the target, and — since `decompile` returned a value other than
`None` — run the matcher and emit the per-candidate log events and report
fragment.  (`if not target: continue` on line 104 never fires: the work set
holds `Function` objects, which are never falsy.)  The `none` branch
transcribes the `else: log_error(...)` arm guarded by `code != None`. -/
def processCandidate (bv : BinaryView) (lib : WeggliLib) (conv : String → String)
    (print_code : Bool) (output_format : String) (qt : String) (target : Func) :
    List Event × String :=
  match (some (decompile bv target) : Option String) with
  | none => ([Event.error ("Decompilation failed for " ++ target.name ++ ". Skipping..")], "")
  | some code =>
    let results := lib.wmatches qt code
    if 0 < results.length then
      let evA := if output_format = "Log" then [Event.info (matchLogLine results.length target)] else []
      let repA := if output_format = "Report Tab" then resultDiv results.length target else ""
      let evB :=
        if print_code = true then
          if output_format = "Log" then
            results.map (fun r => Event.info (lib.display r code false))
          else []
        else []
      let repB :=
        if print_code = true then
          if output_format = "Report Tab" then
            String.join (results.map (fun r => codeDiv (conv (lib.display r code true))))
          else ""
        else ""
      (Event.matcher target code :: (evA ++ evB), repA ++ repB)
    else ([Event.matcher target code], "")

/-- Outcome of one `run_query` call: the events it emitted, and the HTML
body handed to `show_html_report` (Report Tab mode only). -/
structure RunResult where
  events : List Event
  shownReport : Option String
  deriving DecidableEq, Repr

/-- The run outcome when no identifier resolved (`len(referenced_funcs) > 0`
is false, lines 94 and 127–129): only the normalization warnings happened,
and in Report Tab mode the report holds no results. -/
def runEmpty (fmt report0 : String) (warns : List Event) : RunResult :=
  ⟨warns,
    if fmt = "Report Tab" then some (report0 ++ "</body></html>") else none⟩

/-- The run outcome for a non-empty anchor list (lines 94–129): reduce the
search space, log the search size, process every candidate in order, and in
Report Tab mode finish and show the report. -/
def runSearch (bv : BinaryView) (lib : WeggliLib) (conv : String → String)
    (pc : Bool) (fmt qt report0 : String) (warns : List Event)
    (f0 : Func) (rest : List Func) : RunResult :=
  let work := reduceSteps bv f0 rest
  let msg := "Searching through " ++ toString work.length ++ " functions.."
  let report1 := if fmt = "Report Tab" then report0 ++ "<p>" ++ msg ++ "</p>" else report0
  let evsLoop := work.flatMap (fun t => (processCandidate bv lib conv pc fmt qt t).1)
  let report2 :=
    report1 ++ String.join (work.map (fun t => (processCandidate bv lib conv pc fmt qt t).2))
  ⟨warns ++ [Event.info msg] ++ evsLoop,
    if fmt = "Report Tab" then some (report2 ++ "</body></html>") else none⟩

/-- Embeds `WeggliPlugin.run_query` (lines 55–129).  Returns `none` when
`weggli.parse_query` raises (a parse error propagates and aborts the run);
otherwise the events and, in Report Tab mode, the finished HTML body. -/
def run_query (bv : BinaryView) (lib : WeggliLib) (conv : String → String)
    (fg bg red : String) (print_code : Bool) (output_format : String)
    (query : String) : Option RunResult :=
  let norm := normalize_query query
  let qt := norm.1
  let warns := norm.2
  if lib.parseOk qt = true then
    let report0 := if output_format = "Report Tab" then reportHeader fg bg red qt else ""
    match resolvedAnchors bv lib qt with
    | [] => some (runEmpty output_format report0 warns)
    | f0 :: rest =>
      some (runSearch bv lib conv print_code output_format qt report0 warns f0 rest)
  else none

/-! ### Helper lemmas about normalization -/

theorem charCount_append (a b : String) (c : Char) :
    charCount (a ++ b) c = charCount a c + charCount b c := by
  simp [charCount, String.data_append, List.count_append]

theorem hasChar_iff (s : String) (c : Char) : hasChar s c = true ↔ c ∈ s.data := by
  simp [hasChar]

theorem charCount_pos_of_hasChar (s : String) (c : Char) (h : hasChar s c = true) :
    0 < charCount s c :=
  List.count_pos_iff.mpr ((hasChar_iff s c).mp h)

theorem charCount_eq_zero_of_not_hasChar (s : String) (c : Char) (h : hasChar s c = false) :
    charCount s c = 0 := by
  refine List.count_eq_zero.mpr (fun hm => ?_)
  have := (hasChar_iff s c).mpr hm
  rw [h] at this
  exact Bool.false_ne_true this

theorem hasChar_append (a b : String) (c : Char) :
    hasChar (a ++ b) c = (hasChar a c || hasChar b c) := by
  simp [hasChar, String.data_append, List.mem_append]

/-- Appending the semicolon never changes brace presence or brace counts. -/
theorem fixSemicolon_braces (q : String) (c : Char) (hc : hasChar ";" c = false) :
    hasChar (fixSemicolon q).1 c = hasChar q c ∧
      charCount (fixSemicolon q).1 c = charCount q c := by
  unfold fixSemicolon
  split
  · constructor
    · simp [hasChar_append, hc]
    · simp [charCount_append, charCount_eq_zero_of_not_hasChar _ _ hc]
  · exact ⟨rfl, rfl⟩

/-! ### Claim theorems about query normalization -/

/-- C3: normalizing the query `int $x = 1` (no semicolon, no braces)
produces exactly `\x7bint $x = 1;\x7d` and emits exactly two warnings —
first the missing-semicolon warning, then the missing-braces warning. -/
theorem weggli_C3 :
    normalize_query "int $x = 1" =
      ("\x7bint $x = 1;\x7d", [Event.warn semiWarn, Event.warn braceWarn]) := by
  decide

/-- C4: normalization is the identity, with no warnings, on any query that
already contains a semicolon, an opening brace and a closing brace (in
particular on any query with a matching brace pair). -/
theorem weggli_C4 (q : String) (h1 : hasChar q ';' = true)
    (h2 : hasChar q lbrace = true) (h3 : hasChar q rbrace = true) :
    normalize_query q = (q, []) := by
  simp [normalize_query, fixSemicolon, fixBraces, h1, h2, h3]

/-- Witness for C4 at the concrete well-formed query `\x7ba;\x7d`. -/
theorem weggli_C4_witness :
    (hasChar "\x7ba;\x7d" ';' = true ∧ hasChar "\x7ba;\x7d" lbrace = true ∧
      hasChar "\x7ba;\x7d" rbrace = true) ∧
    normalize_query "\x7ba;\x7d" = ("\x7ba;\x7d", []) :=
  ⟨⟨by decide, by decide, by decide⟩, weggli_C4 _ (by decide) (by decide) (by decide)⟩

/-- C10: brace normalization only tests presence of each brace character,
so a query containing exactly one of the two brace characters gets wrapped
in a fresh brace pair and ends up with unequal brace counts. -/
theorem weggli_C10 (q : String)
    (h : (hasChar q lbrace = true ∧ hasChar q rbrace = false) ∨
         (hasChar q lbrace = false ∧ hasChar q rbrace = true)) :
    charCount (normalize_query q).1 lbrace ≠ charCount (normalize_query q).1 rbrace ∧
    ∃ q1, (normalize_query q).1 = lbraceS ++ q1 ++ rbraceS := by
  have hl := fixSemicolon_braces q lbrace (by decide)
  have hr := fixSemicolon_braces q rbrace (by decide)
  have hwrap : (normalize_query q).1 = lbraceS ++ (fixSemicolon q).1 ++ rbraceS := by
    unfold normalize_query fixBraces
    rcases h with ⟨_, h2⟩ | ⟨h1, _⟩
    · rw [if_pos (Or.inr (hr.1.trans h2))]
    · rw [if_pos (Or.inl (hl.1.trans h1))]
  refine ⟨?_, ⟨(fixSemicolon q).1, hwrap⟩⟩
  rw [hwrap, charCount_append, charCount_append, charCount_append, charCount_append,
    hl.2, hr.2]
  have cl1 : charCount lbraceS lbrace = 1 := by decide
  have cl0 : charCount rbraceS lbrace = 0 := by decide
  have cr0 : charCount lbraceS rbrace = 0 := by decide
  have cr1 : charCount rbraceS rbrace = 1 := by decide
  rw [cl1, cl0, cr0, cr1]
  rcases h with ⟨h1, h2⟩ | ⟨h1, h2⟩
  · have := charCount_pos_of_hasChar q lbrace h1
    have := charCount_eq_zero_of_not_hasChar q rbrace h2
    omega
  · have := charCount_eq_zero_of_not_hasChar q lbrace h1
    have := charCount_pos_of_hasChar q rbrace h2
    omega

/-- Witness for C10 at the concrete query `\x7ba;` (only an opening
brace): the normalized query has two opening braces but one closing. -/
theorem weggli_C10_witness :
    (hasChar "\x7ba;" lbrace = true ∧ hasChar "\x7ba;" rbrace = false) ∧
    (charCount (normalize_query "\x7ba;").1 lbrace ≠
        charCount (normalize_query "\x7ba;").1 rbrace ∧
      ∃ q1, (normalize_query "\x7ba;").1 = lbraceS ++ q1 ++ rbraceS) :=
  ⟨⟨by decide, by decide⟩, weggli_C10 _ (Or.inl ⟨by decide, by decide⟩)⟩

/-! ### Claim theorems about the search-space reducer and caller index -/

/-- Intersecting caller sets into the working set can only shrink it. -/
theorem foldl_inter_subset (bv : BinaryView) (gs : List Func) (w : List Func) :
    gs.foldl (fun w g => interWork w (xrefs_to bv g)) w ⊆ w := by
  induction gs generalizing w with
  | nil => exact fun a ha => ha
  | cons g gs ih =>
    intro a ha
    have h2 : a ∈ interWork w (xrefs_to bv g) := ih _ ha
    exact List.filter_subset' _ h2

/-- C1: the working set of the search-space reduction shrinks
monotonically — after each further anchor it is a subset of what it was
after the previous anchor — and the final reduced set is a subset of the
seed, the caller set of the first anchor alone.  (A non-empty anchor list
is written `f0 :: rest`; `reduceSteps bv f0 (rest.take i)` is the working
set after processing anchor `i` of `rest`, and
`reduceSteps bv f0 [] = seedWork bv f0` definitionally.) -/
theorem weggli_C1 (bv : BinaryView) (f0 : Func) (rest : List Func) (i : Nat) :
    reduceSteps bv f0 (rest.take (i + 1)) ⊆ reduceSteps bv f0 (rest.take i) ∧
    reduceSteps bv f0 rest ⊆ seedWork bv f0 := by
  constructor
  · unfold reduceSteps
    rw [List.take_succ]
    cases h : rest[i]? with
    | none => simp
    | some g =>
      simp only [Option.toList, List.foldl_append, List.foldl_cons, List.foldl_nil]
      intro a ha
      exact List.filter_subset' _ ha
  · exact foldl_inter_subset bv rest (seedWork bv f0)

/-- C5: `xrefs_to` yields exactly the known functions whose body ranges
contain the address of some call site targeting `f` (all of them, when
ranges overlap).  Determinism and restartability of the Python generator
are inherent to the pure embedding: `xrefs_to` is a function of the fixed
binary view alone. -/
theorem weggli_C5 (bv : BinaryView) (f g : Func) :
    g ∈ xrefs_to bv f ↔
      ∃ x ∈ bv.getCallers f.start, g ∈ bv.functions ∧ g.containsAddr x.address = true := by
  simp [xrefs_to, get_functions_containing, List.mem_flatMap, List.mem_filter, and_assoc]

/-! ### Helper lemmas about the candidate loop and the run -/

theorem processCandidate_no_error (bv : BinaryView) (lib : WeggliLib) (conv : String → String)
    (pc : Bool) (fmt qt : String) (t : Func) :
    ∀ e ∈ (processCandidate bv lib conv pc fmt qt t).1, isErrorEvent e = false := by
  intro e he
  simp only [processCandidate] at he
  split at he
  · simp only [List.mem_cons, List.mem_append] at he
    rcases he with rfl | he | he
    · rfl
    · split at he <;> simp_all [isErrorEvent]
    · split at he
      · split at he
        · simp only [List.mem_map] at he
          obtain ⟨r, _, rfl⟩ := he
          rfl
        · simp at he
      · simp at he
  · simp only [List.mem_singleton] at he
    subst he
    rfl

theorem processCandidate_matcher_mem (bv : BinaryView) (lib : WeggliLib) (conv : String → String)
    (pc : Bool) (fmt qt : String) (t : Func) :
    Event.matcher t (decompile bv t) ∈ (processCandidate bv lib conv pc fmt qt t).1 := by
  simp only [processCandidate]
  split
  · exact List.mem_cons_self _ _
  · exact List.mem_singleton.mpr rfl

/-- Every normalization event is a warning. -/
theorem normalize_events_warn (q : String) :
    ∀ e ∈ (normalize_query q).2, ∃ m, e = Event.warn m := by
  intro e he
  unfold normalize_query fixBraces fixSemicolon at he
  split at he <;> split at he <;> simp_all
  rcases he with rfl | rfl <;> exact ⟨_, rfl⟩

theorem run_query_eq_nil (bv : BinaryView) (lib : WeggliLib) (conv : String → String)
    (fg bg red : String) (pc : Bool) (fmt q : String)
    (hp : lib.parseOk (normalize_query q).1 = true)
    (ha : resolvedAnchors bv lib (normalize_query q).1 = []) :
    run_query bv lib conv fg bg red pc fmt q =
      some (runEmpty fmt
        (if fmt = "Report Tab" then reportHeader fg bg red (normalize_query q).1 else "")
        (normalize_query q).2) := by
  simp only [run_query]
  rw [if_pos hp, ha]

theorem run_query_eq_cons (bv : BinaryView) (lib : WeggliLib) (conv : String → String)
    (fg bg red : String) (pc : Bool) (fmt q : String) (f0 : Func) (rest : List Func)
    (hp : lib.parseOk (normalize_query q).1 = true)
    (ha : resolvedAnchors bv lib (normalize_query q).1 = f0 :: rest) :
    run_query bv lib conv fg bg red pc fmt q =
      some (runSearch bv lib conv pc fmt (normalize_query q).1
        (if fmt = "Report Tab" then reportHeader fg bg red (normalize_query q).1 else "")
        (normalize_query q).2 f0 rest) := by
  simp only [run_query]
  rw [if_pos hp, ha]

theorem resultDiv_length_pos (n : Nat) (t : Func) : 0 < (resultDiv n t).length := by
  unfold resultDiv
  repeat rw [String.length_append]
  have h : 0 < ("<div class=\"result\">" : String).length := by decide
  omega

/-! ### Claim theorems about the candidate loop -/

/-- C9: a candidate produces output exactly when the matcher finds
matches — in Log mode the match line is emitted iff the match count is
positive, and in Report Tab mode the per-candidate report fragment starts
with the result div iff the match count is positive. -/
theorem weggli_C9 (bv : BinaryView) (lib : WeggliLib) (conv : String → String)
    (pc : Bool) (qt : String) (t : Func) :
    (Event.info (matchLogLine (lib.wmatches qt (decompile bv t)).length t) ∈
        (processCandidate bv lib conv pc "Log" qt t).1 ↔
      0 < (lib.wmatches qt (decompile bv t)).length) ∧
    ((∃ s, (processCandidate bv lib conv pc "Report Tab" qt t).2 =
        resultDiv (lib.wmatches qt (decompile bv t)).length t ++ s) ↔
      0 < (lib.wmatches qt (decompile bv t)).length) := by
  by_cases h : 0 < (lib.wmatches qt (decompile bv t)).length
  · refine ⟨⟨fun _ => h, fun _ => ?_⟩, ⟨fun _ => h, fun _ => ?_⟩⟩
    · simp only [processCandidate]
      rw [if_pos h]
      simp
    · simp only [processCandidate]
      rw [if_pos h]
      simp
  · refine ⟨⟨fun hm => absurd ?_ h, fun h0 => absurd h0 h⟩,
      ⟨fun hs => absurd ?_ h, fun h0 => absurd h0 h⟩⟩
    · exfalso
      simp only [processCandidate] at hm
      rw [if_neg h] at hm
      simp at hm
    · exfalso
      obtain ⟨s, hs⟩ := hs
      simp only [processCandidate] at hs
      rw [if_neg h] at hs
      simp only at hs
      have hlen := congrArg String.length hs
      rw [String.length_append] at hlen
      have hp := resultDiv_length_pos (lib.wmatches qt (decompile bv t)).length t
      simp at hlen
      omega

/-- C2 (amended): rendering never fails — `decompile` always returns a
string, so for every candidate the run logs no rendering error, never
skips the candidate, and hands the rendered text (empty or not) to the
matcher; processing always continues. -/
theorem weggli_C2_amended (bv : BinaryView) (lib : WeggliLib) (conv : String → String)
    (pc : Bool) (fmt qt : String) (t : Func) :
    (processCandidate bv lib conv pc fmt qt t).1.filter isErrorEvent = [] ∧
    Event.matcher t (decompile bv t) ∈ (processCandidate bv lib conv pc fmt qt t).1 :=
  ⟨List.filter_eq_nil_iff.mpr
      (fun e he => by simp [processCandidate_no_error bv lib conv pc fmt qt t e he]),
   processCandidate_matcher_mem bv lib conv pc fmt qt t⟩

/-- C8: the renderer is total, so in every completed run no
"Decompilation failed" error is ever logged and every candidate's rendered
text — empty or not — reaches the matcher; the skip-and-log branch is
unreachable. -/
theorem weggli_C8 (bv : BinaryView) (lib : WeggliLib) (conv : String → String)
    (fg bg red : String) (pc : Bool) (fmt q : String) (r : RunResult)
    (h : run_query bv lib conv fg bg red pc fmt q = some r) :
    r.events.filter isErrorEvent = [] ∧
    ∀ t ∈ candidateSet bv lib (normalize_query q).1,
      Event.matcher t (decompile bv t) ∈ r.events := by
  by_cases hp : lib.parseOk (normalize_query q).1 = true
  case neg =>
    simp only [run_query] at h
    rw [if_neg hp] at h
    exact absurd h (by simp)
  cases ha : resolvedAnchors bv lib (normalize_query q).1 with
  | nil =>
    rw [run_query_eq_nil bv lib conv fg bg red pc fmt q hp ha] at h
    obtain rfl := Option.some.inj h
    constructor
    · refine List.filter_eq_nil_iff.mpr (fun e he => ?_)
      obtain ⟨m, rfl⟩ := normalize_events_warn q e he
      simp [isErrorEvent]
    · intro t ht
      simp only [candidateSet, ha] at ht
      simp at ht
  | cons f0 rest =>
    rw [run_query_eq_cons bv lib conv fg bg red pc fmt q f0 rest hp ha] at h
    obtain rfl := Option.some.inj h
    constructor
    · refine List.filter_eq_nil_iff.mpr (fun e he => ?_)
      simp only [runSearch, List.mem_append, List.mem_singleton, List.mem_flatMap] at he
      rcases he with (hw | rfl) | ⟨u, _, hpc⟩
      · obtain ⟨m, rfl⟩ := normalize_events_warn q e hw
        simp [isErrorEvent]
      · simp [isErrorEvent]
      · simp [processCandidate_no_error bv lib conv pc fmt (normalize_query q).1 u e hpc]
    · intro t ht
      simp only [candidateSet, ha] at ht
      simp only [runSearch]
      exact List.mem_append.mpr (Or.inr
        (List.mem_flatMap_of_mem ht
          (processCandidate_matcher_mem bv lib conv pc fmt (normalize_query q).1 t)))

/-- C7: in Log mode, every candidate with a positive match count produces
the log line `<N> matches in <qualified-name> @ <hex-address>` (spelled
out by `matchLogLine`/`pyHex`). -/
theorem weggli_C7 (bv : BinaryView) (lib : WeggliLib) (conv : String → String)
    (fg bg red : String) (pc : Bool) (q : String) (t : Func)
    (h1 : lib.parseOk (normalize_query q).1 = true)
    (h2 : t ∈ candidateSet bv lib (normalize_query q).1)
    (h3 : 0 < (lib.wmatches (normalize_query q).1 (decompile bv t)).length) :
    ∃ r, run_query bv lib conv fg bg red pc "Log" q = some r ∧
      Event.info (matchLogLine (lib.wmatches (normalize_query q).1 (decompile bv t)).length t)
        ∈ r.events := by
  cases ha : resolvedAnchors bv lib (normalize_query q).1 with
  | nil =>
    simp only [candidateSet, ha] at h2
    simp at h2
  | cons f0 rest =>
    refine ⟨_, run_query_eq_cons bv lib conv fg bg red pc "Log" q f0 rest h1 ha, ?_⟩
    simp only [candidateSet, ha] at h2
    simp only [runSearch]
    refine List.mem_append.mpr (Or.inr (List.mem_flatMap_of_mem h2 ?_))
    simp only [processCandidate]
    rw [if_pos h3]
    simp

/-- C6: when no identifier of the query resolves to a known function, the
run completes normally with no candidate searched — the events are exactly
the normalization warnings (so no matcher call, no error, no search), and
in Report Tab mode the shown report is exactly the header plus closing
tags, with no result entries. -/
theorem weggli_C6 (bv : BinaryView) (lib : WeggliLib) (conv : String → String)
    (fg bg red : String) (pc : Bool) (fmt q : String)
    (hp : lib.parseOk (normalize_query q).1 = true)
    (ha : resolvedAnchors bv lib (normalize_query q).1 = []) :
    ∃ r, run_query bv lib conv fg bg red pc fmt q = some r ∧
      r.events = (normalize_query q).2 ∧
      r.events.filter isMatcherEvent = [] ∧
      r.events.filter isErrorEvent = [] ∧
      r.shownReport = (if fmt = "Report Tab"
        then some (reportHeader fg bg red (normalize_query q).1 ++ "</body></html>")
        else none) := by
  refine ⟨_, run_query_eq_nil bv lib conv fg bg red pc fmt q hp ha, rfl, ?_, ?_, ?_⟩
  · refine List.filter_eq_nil_iff.mpr (fun e he => ?_)
    obtain ⟨m, rfl⟩ := normalize_events_warn q e he
    simp [isMatcherEvent]
  · refine List.filter_eq_nil_iff.mpr (fun e he => ?_)
    obtain ⟨m, rfl⟩ := normalize_events_warn q e he
    simp [isErrorEvent]
  · by_cases hf : fmt = "Report Tab" <;> simp [runEmpty, hf]

/-! ### Concrete instances for witnesses and counterexamples

A two-function binary: `funA` (a callee named `A`) and `funX` (a caller
whose body contains the one call site targeting `A`).  Both line windows
are empty, so every function decompiles to the empty string. -/

def funA : Func := ⟨100, "A", "A", [(100, 110)]⟩

def funX : Func := ⟨200, "X", "X", [(200, 300)]⟩

def bvW : BinaryView :=
  ⟨[funX, funA],
   fun s => if s = 100 then [⟨250⟩] else [],
   fun _ => [],
   fun _ => []⟩

/-- A weggli stub whose queries mention `A` and never match. -/
def libW0 : WeggliLib :=
  ⟨fun _ => true, fun _ => ["A"], fun _ _ => [], fun _ _ _ => ""⟩

/-- A weggli stub whose queries mention `A` and always produce one match. -/
def libW1 : WeggliLib :=
  ⟨fun _ => true, fun _ => ["A"], fun _ _ => [0], fun _ _ _ => ""⟩

/-- A weggli stub whose queries mention only the unknown name `Z`. -/
def libW2 : WeggliLib :=
  ⟨fun _ => true, fun _ => ["Z"], fun _ _ => [], fun _ _ _ => ""⟩

def queryW : String := "\x7bA();\x7d"

/-- C2 (counterexample): a concrete run with a candidate (`funX`) whose
rendering is the empty string.  Contrary to the claim, the run logs no
error for it and does not skip it: the events are exactly the search-size
log line followed by the matcher call on the empty rendering. -/
theorem weggli_C2_cex :
    decompile bvW funX = "" ∧
    run_query bvW libW0 (fun s => s) "" "" "" false "Log" queryW =
      some ⟨[Event.info "Searching through 1 functions..",
             Event.matcher funX ""], none⟩ :=
  ⟨rfl, rfl⟩

/-- Witness for C6 at a concrete run whose only identifier `Z` resolves to
no function. -/
theorem weggli_C6_witness :
    (libW2.parseOk (normalize_query queryW).1 = true ∧
      resolvedAnchors bvW libW2 (normalize_query queryW).1 = []) ∧
    (∃ r, run_query bvW libW2 (fun s => s) "" "" "" false "Log" queryW = some r ∧
      r.events = (normalize_query queryW).2 ∧
      r.events.filter isMatcherEvent = [] ∧
      r.events.filter isErrorEvent = [] ∧
      r.shownReport = (if ("Log" : String) = "Report Tab"
        then some (reportHeader "" "" "" (normalize_query queryW).1 ++ "</body></html>")
        else none)) :=
  ⟨⟨by decide, by decide⟩,
   weggli_C6 bvW libW2 (fun s => s) "" "" "" false "Log" queryW (by decide) (by decide)⟩

/-- Witness for C7 at a concrete run where the candidate `funX` has one
match. -/
theorem weggli_C7_witness :
    (libW1.parseOk (normalize_query queryW).1 = true ∧
      funX ∈ candidateSet bvW libW1 (normalize_query queryW).1 ∧
      0 < (libW1.wmatches (normalize_query queryW).1 (decompile bvW funX)).length) ∧
    (∃ r, run_query bvW libW1 (fun s => s) "" "" "" false "Log" queryW = some r ∧
      Event.info (matchLogLine
          (libW1.wmatches (normalize_query queryW).1 (decompile bvW funX)).length funX)
        ∈ r.events) :=
  ⟨⟨by decide, by decide, by decide⟩,
   weggli_C7 bvW libW1 (fun s => s) "" "" "" false queryW funX
     (by decide) (by decide) (by decide)⟩

/-- The concrete outcome of the C8 witness run. -/
def runResW : RunResult :=
  ⟨[Event.info "Searching through 1 functions..", Event.matcher funX ""], none⟩

/-- Witness for C8 at a concrete completed run: no error events, and the
(empty) rendering of the only candidate reached the matcher. -/
theorem weggli_C8_witness :
    run_query bvW libW0 (fun s => s) "" "" "" false "Log" queryW = some runResW ∧
    (runResW.events.filter isErrorEvent = [] ∧
      ∀ t ∈ candidateSet bvW libW0 (normalize_query queryW).1,
        Event.matcher t (decompile bvW t) ∈ runResW.events) :=
  ⟨rfl, weggli_C8 bvW libW0 (fun s => s) "" "" "" false "Log" queryW runResW rfl⟩

end BinjaWeggli
